import Mathlib

/-!
# Verification of the TTML lyric-processing core

A shallow embedding, in Lean 4, of the lyric-processing core of the
`amll-page` repository:

* `ttml_processor/ttml_parser.rs` — TTML timecode parser, timing-mode
  detection, and the paragraph (`<p>`) / span state machine;
* `ttml_processor/lyric_optimizer.rs` — the syllable-duration smoother;
* `ttml_processor/agent_recognizer.rs` — the agent (singer) recognizer;
* `ttml-processor/src/translation.rs` — the downstream adapter's duet flags.

Modelling conventions:

* Rust `u64` is modelled as `Nat`; every `saturating_sub` is Lean's
  truncated `Nat` subtraction, which coincides with it.  Additions that
  cannot overflow on the inputs of interest are plain `Nat` addition.
* Rust `f64` is modelled as `ℚ` (exact rational arithmetic);
  `f64::round` (round half away from zero, then `as u64` which saturates
  below at 0) is `qRoundNat`.  `u64::MAX as f64` rounds to `2 ^ 64`,
  which is what the overflow comparison uses.  `<f64 as FromStr>` is
  modelled on the plain decimal grammar (optional sign, digits, at most
  one dot); exponent, `inf` and `nan` literals are not modelled — no
  claim exercises them.
* Rust `String`/`str` operations are re-implemented on `List Char` with
  Rust's Unicode `White_Space` predicate, and byte indices are counted
  with `Char.utf8Size`.  Byte slicing that would panic on a non-boundary
  index is modelled as `Option.none`.
* `HashMap<String, _>` values that the embedded code only reads through
  `get`/`insert`/`len` are modelled as association lists with unique keys.
* Warning strings are not accumulated by the paragraph machine (they are
  human-readable Chinese messages with no semantic content for the
  properties below); where a branch only emits a warning it is a no-op
  here.  Timing-mode detection, whose fallback warning *is* part of a
  claim, returns an explicit warning flag instead.
-/

/-! ## Rust string primitives -/

/-- Rust `char::is_whitespace`: the Unicode `White_Space` property
(U+0009–U+000D, U+0020, U+0085, U+00A0, U+1680, U+2000–U+200A, U+2028,
U+2029, U+202F, U+205F, U+3000). -/
def rustIsWhitespace (c : Char) : Bool :=
  c.val == 0x09 || c.val == 0x0A || c.val == 0x0B || c.val == 0x0C || c.val == 0x0D ||
  c.val == 0x20 || c.val == 0x85 || c.val == 0xA0 || c.val == 0x1680 ||
  (0x2000 ≤ c.val && c.val ≤ 0x200A) || c.val == 0x2028 || c.val == 0x2029 ||
  c.val == 0x202F || c.val == 0x205F || c.val == 0x3000

/-- Rust `str::trim` (drop Unicode whitespace from both ends). -/
def strTrim (s : String) : String :=
  ⟨((s.data.dropWhile rustIsWhitespace).reverse.dropWhile rustIsWhitespace).reverse⟩

/-- Rust `str::trim_end`. -/
def strTrimEnd (s : String) : String :=
  ⟨(s.data.reverse.dropWhile rustIsWhitespace).reverse⟩

/-- Rust `s.ends_with(char::is_whitespace)` (false on the empty string). -/
def strEndsWithWs (s : String) : Bool :=
  match s.data.getLast? with
  | some c => rustIsWhitespace c
  | none => false

/-- Helper for `str::split_whitespace`: accumulate maximal non-whitespace
runs, dropping whitespace. -/
def splitWsAux : List Char → List Char → List (List Char)
  | [], acc => if acc.isEmpty then [] else [acc.reverse]
  | c :: rest, acc =>
    if rustIsWhitespace c then
      if acc.isEmpty then splitWsAux rest [] else acc.reverse :: splitWsAux rest []
    else splitWsAux rest (c :: acc)

/-- `normalize_text_whitespace` (ttml_parser.rs:1386-1392): trim, then
collapse internal whitespace runs to single spaces. -/
def normalize_text_whitespace (text : String) : String :=
  let trimmed := strTrim text
  if trimmed = "" then ""
  else String.intercalate " " ((splitWsAux trimmed.data []).map fun l => (⟨l⟩ : String))

/-- `clean_parentheses_from_bg_text` (ttml_parser.rs:1394-1400): trim, strip
all leading `(`/`（`, all trailing `)`/`）`, trim again. -/
def clean_parentheses_from_bg_text (text : String) : String :=
  let t1 := strTrim text
  let t2 : String := ⟨t1.data.dropWhile fun c => c == '(' || c == '（'⟩
  let t3 : String := ⟨(t2.data.reverse.dropWhile fun c => c == ')' || c == '）').reverse⟩
  strTrim t3

/-- Rust `str::len` (UTF-8 byte length). -/
def utf8Len (s : String) : Nat :=
  (s.data.map Char.utf8Size).sum

/-- Rust `str::split(sep)` for a single-`char` separator (keeps empty
pieces, yields one piece for the empty string). -/
def splitOnChar (sep : Char) : List Char → List (List Char)
  | [] => [[]]
  | c :: rest =>
    if c = sep then [] :: splitOnChar sep rest
    else
      match splitOnChar sep rest with
      | h :: t => (c :: h) :: t
      | [] => [[c]]

/-- `splitOnChar` lifted to `String`. -/
def strSplitOnChar (sep : Char) (s : String) : List String :=
  (splitOnChar sep s.data).map fun l => (⟨l⟩ : String)

/-! ## Data model (`ttml_processor/types.rs`) -/

/-- `LyricSyllable` (types.rs:51-57). -/
structure LyricSyllable where
  text : String
  start_ms : Nat
  end_ms : Nat
  duration_ms : Option Nat
  ends_with_space : Bool
deriving DecidableEq, Repr

/-- `TranslationEntry` (types.rs:60-63). -/
structure TranslationEntry where
  text : String
  lang : Option String
deriving DecidableEq, Repr

/-- `RomanizationEntry` (types.rs:66-70). -/
structure RomanizationEntry where
  text : String
  lang : Option String
  scheme : Option String
deriving DecidableEq, Repr

/-- `BackgroundSection` (types.rs:73-79). -/
structure BackgroundSection where
  start_ms : Nat
  end_ms : Nat
  syllables : List LyricSyllable
  translations : List TranslationEntry
  romanizations : List RomanizationEntry
deriving DecidableEq, Repr

/-- `LyricLine` (types.rs:82-93). -/
structure LyricLine where
  start_ms : Nat
  end_ms : Nat
  line_text : Option String
  main_syllables : List LyricSyllable
  translations : List TranslationEntry
  romanizations : List RomanizationEntry
  agent : Option String
  background_section : Option BackgroundSection
  song_part : Option String
  itunes_key : Option String
deriving DecidableEq, Repr

/-! ## Timecode parser (`parse_ttml_time_to_ms`, ttml_parser.rs:1228-1384)

Errors carry human-readable messages in the source; the message content is
irrelevant to every claim, so the result type here is `Option Nat` with
`none` for every `Err(ConvertError::InvalidTime(..))`. -/

/-- `f64::round` on a non-negative result followed by `as u64`
(half away from zero; negative values saturate to 0). -/
def qRoundNat (x : ℚ) : Nat := (⌊x + 1 / 2⌋).toNat

/-- Rust `str::parse::<u64>`: optional leading `+`, then one or more ASCII
digits, value below `2 ^ 64`. -/
def parseU64 (s : String) : Option Nat :=
  let digitsToNat : List Char → Option Nat := fun l =>
    if l = [] then none
    else if l.all Char.isDigit then
      let v := l.foldl (fun acc c => acc * 10 + (c.toNat - '0'.toNat)) 0
      if v < 2 ^ 64 then some v else none
    else none
  match s.data with
  | '+' :: rest => digitsToNat rest
  | l => digitsToNat l

/-- Rust `str::parse::<f64>` restricted to plain decimal literals:
optional sign, digits around at most one dot, at least one digit.
Returns the sign bit (for `is_sign_negative`, which is true for `-0`)
and the exact value `num / 10 ^ fracLen` as the pair `(num, fracLen)`. -/
def parseF64Decimal (s : String) : Option (Bool × Nat × Nat) :=
  let digitsVal : List Char → Nat := fun l =>
    l.foldl (fun acc c => acc * 10 + (c.toNat - '0'.toNat)) 0
  let (neg, rest) :=
    match s.data with
    | '-' :: r => (true, r)
    | '+' :: r => (false, r)
    | l => (false, l)
  match splitOnChar '.' rest with
  | [intPart] =>
    if intPart ≠ [] ∧ intPart.all Char.isDigit then
      some (neg, digitsVal intPart, 0)
    else none
  | [intPart, fracPart] =>
    if (intPart ≠ [] ∨ fracPart ≠ []) ∧
        intPart.all Char.isDigit ∧ fracPart.all Char.isDigit then
      some (neg, digitsVal intPart * 10 ^ fracPart.length + digitsVal fracPart,
        fracPart.length)
    else none
  | _ => none

/-- The `parse_ms_part` closure (ttml_parser.rs:1260-1272): at most three
digits, left-justified to milliseconds. -/
def parse_ms_part (msStr : String) : Option Nat :=
  if msStr = "" ∨ msStr.data.length > 3 ∨ msStr.data.any (fun c => ¬ c.isDigit) then none
  else
    (parseU64 msStr).map fun v => v * 10 ^ (3 - msStr.data.length)

/-- Seconds component with optional fractional part: `SS`, `SS.fff`
(rejecting an empty integer part and more than one dot), shared by the
1-, 2- and 3-colon-part branches of `parse_ttml_time_to_ms`. -/
def parseSecondsAndMs (secPart : String) : Option (Nat × Nat) :=
  match strSplitOnChar '.' secPart with
  | [d0] =>
    if d0 = "" then none
    else (parseU64 d0).map fun s => (s, 0)
  | [d0, d1] =>
    if d0 = "" then none
    else
      match parseU64 d0, parse_ms_part d1 with
      | some s, some m => some (s, m)
      | _, _ => none
  | _ => none

/-- `parse_ttml_time_to_ms` (ttml_parser.rs:1228-1384). -/
def parse_ttml_time_to_ms (timeStr : String) : Option Nat :=
  match timeStr.data.getLast? with
  | some 's' =>
    let stripped : String := ⟨timeStr.data.dropLast⟩
    if stripped = "" ∨ stripped.data.head? = some '.' ∨ stripped.data.getLast? = some '.' then
      none
    else
      match parseF64Decimal stripped with
      | none => none
      | some (neg, num, fracLen) =>
        if neg then none
        else
          -- `total_ms = seconds * 1000.0 = (num * 1000) / 10 ^ fracLen` exactly;
          -- the comparison is against `u64::MAX as f64 = 2 ^ 64`, and
          -- `.round() as u64` rounds half away from zero then saturates.
          let den := 10 ^ fracLen
          if num * 1000 > 2 ^ 64 * den then none
          else some (min ((2 * (num * 1000) + den) / (2 * den)) (2 ^ 64 - 1))
  | _ =>
    let colonParts := strSplitOnChar ':' timeStr
    let assembled : Option (Nat × Nat × Nat × Nat) :=
      match colonParts with
      | [p0, p1, p2] =>
        match parseU64 p0, parseU64 p1, parseSecondsAndMs p2 with
        | some h, some m, some (s, ms) => some (h, m, s, ms)
        | _, _, _ => none
      | [p0, p1] =>
        match parseU64 p0, parseSecondsAndMs p1 with
        | some m, some (s, ms) => some (0, m, s, ms)
        | _, _ => none
      | [p0] =>
        match parseSecondsAndMs p0 with
        | some (s, ms) => some (0, 0, s, ms)
        | _ => none
      | _ => none
    match assembled with
    | none => none
    | some (hours, minutes, seconds, milliseconds) =>
      if minutes ≥ 60 then none
      else if colonParts.length > 1 ∧ seconds ≥ 60 then none
      else some (hours * 3600000 + minutes * 60000 + seconds * 1000 + milliseconds)

/-- C2: the six timecode vectors from the spec. -/
theorem parse_ttml_time_vectors :
    parse_ttml_time_to_ms "1s" = some 1000 ∧
    parse_ttml_time_to_ms "00:01.5" = some 1500 ∧
    parse_ttml_time_to_ms "01:00:00" = some 3600000 ∧
    parse_ttml_time_to_ms ".5" = none ∧
    parse_ttml_time_to_ms "60:00" = none ∧
    parse_ttml_time_to_ms "-1s" = none := by
  refine ⟨?_, ?_, ?_, ?_, ?_, ?_⟩ <;> decide

/-! ## Timing-mode detection (`parse_ttml` / `process_tt_start`,
ttml_parser.rs:147-154 and 651-687) -/

/-- Match `begin\s*=` at the head of a character list
(the suffix of the regex `<span\s+[^>]*begin\s*=`). -/
def matchBeginEq (l : List Char) : Bool :=
  match l with
  | 'b' :: 'e' :: 'g' :: 'i' :: 'n' :: rest =>
    match rest.dropWhile rustIsWhitespace with
    | '=' :: _ => true
    | _ => false
  | _ => false

/-- Scan the `[^>]*` region of the regex: try `begin\s*=` at every
position reachable without crossing a `>`. -/
def scanNonGt : List Char → Bool
  | [] => false
  | c :: rest =>
    if matchBeginEq (c :: rest) then true
    else if c = '>' then false
    else scanNonGt rest

/-- Try the regex `<span\s+[^>]*begin\s*=` anchored at the head of the
list. -/
def tryTimedSpanAt (l : List Char) : Bool :=
  match l with
  | '<' :: 's' :: 'p' :: 'a' :: 'n' :: c :: rest => rustIsWhitespace c && scanNonGt rest
  | _ => false

/-- Search for the regex anywhere in the list. -/
def hasTimedSpanScan : List Char → Bool
  | [] => false
  | c :: rest => tryTimedSpanAt (c :: rest) || hasTimedSpanScan rest

/-- The `TIMED_SPAN_RE` test of `parse_ttml` (ttml_parser.rs:151-154):
does the raw document match `<span\s+[^>]*begin\s*=` anywhere? -/
def hasTimedSpanTags (content : String) : Bool :=
  hasTimedSpanScan content.data

/-- `process_tt_start` (ttml_parser.rs:651-671), restricted to the timing
decision: given the root element's `itunes:timing` attribute value (if
any) and the `TIMED_SPAN_RE` result, return
`(is_line_timing_mode, fallback warning emitted)`.  The `xml:lang`
handling of the same function touches neither output. -/
def process_tt_start (timingAttr : Option String) (hasTimedSpans : Bool) : Bool × Bool :=
  match timingAttr with
  | some v => if v = "line" then (true, false) else (false, false)
  | none => if ¬ hasTimedSpans then (true, true) else (false, false)

/-- Timing-mode decision as claim C1 words it (spec-side definition, for
refutation): `itunes:timing="line"` → line-timed; *otherwise* a timed
span decides; otherwise fall back to line-timed with a warning. -/
def ttTimingClaimC1 (timingAttr : Option String) (hasTimedSpans : Bool) : Bool × Bool :=
  if timingAttr = some "line" then (true, false)
  else if hasTimedSpans then (false, false)
  else (true, true)

/-- Timing-mode decision as amended (spec-side definition): any *other*
explicit `itunes:timing` value forces word-timed mode without a warning;
the timed-span fallback applies only when the attribute is absent. -/
def ttTimingAmended (timingAttr : Option String) (hasTimedSpans : Bool) : Bool × Bool :=
  if timingAttr = some "line" then (true, false)
  else if timingAttr.isSome then (false, false)
  else if hasTimedSpans then (false, false)
  else (true, true)

/-- C1 counterexample: a document whose root carries
`itunes:timing="word"` and which contains no timed span is *not*
treated as line-timed and gets no fallback warning, contradicting the
claim's "otherwise" reading (which demands `(true, warning)` here). -/
theorem process_tt_start_c1_counterexample :
    process_tt_start (some "word")
        (hasTimedSpanTags "<tt itunes:timing=\x22word\x22><body><p begin=\x220s\x22 end=\x221s\x22>hi</p></body></tt>")
      = (false, false) ∧
    ttTimingClaimC1 (some "word")
        (hasTimedSpanTags "<tt itunes:timing=\x22word\x22><body><p begin=\x220s\x22 end=\x221s\x22>hi</p></body></tt>")
      = (true, true) := by
  constructor <;> decide

/-- C1 amended: the timing decision of `process_tt_start` agrees with the
amended spec-side decision table for every attribute value and every
document. -/
theorem process_tt_start_c1_amended (timingAttr : Option String) (content : String) :
    process_tt_start timingAttr (hasTimedSpanTags content)
      = ttTimingAmended timingAttr (hasTimedSpanTags content) := by
  cases timingAttr with
  | none =>
    simp only [process_tt_start, ttTimingAmended, Option.isSome]
    cases hasTimedSpanTags content <;> simp
  | some v =>
    simp only [process_tt_start, ttTimingAmended, Option.isSome]
    by_cases h : v = "line" <;> simp [h]

/-! ## Syllable smoother (`apply_smoothing`, lyric_optimizer.rs:3-95)

`f64` duration arithmetic is modelled as exact rational arithmetic on `ℚ`;
the endpoint-preservation property proved below is independent of the
numeric error this ignores. -/

/-- `SyllableSmoothingOptions` (types.rs:149-154), with the `f64` factor
as `ℚ`. -/
structure SyllableSmoothingOptions where
  factor : ℚ
  duration_threshold_ms : Nat
  gap_threshold_ms : Nat
  smoothing_iterations : Nat
deriving DecidableEq, Repr

/-- `u64::abs_diff`. -/
def natAbsDiff (a b : Nat) : Nat := max a b - min a b

/-- The group-boundary predicate of `apply_smoothing`
(lyric_optimizer.rs:15-24): duration jump above `duration_threshold_ms`
or gap above `gap_threshold_ms`. -/
def smoothBreak (opts : SyllableSmoothingOptions) (a b : LyricSyllable) : Bool :=
  let durationA := a.end_ms - a.start_ms
  let durationB := b.end_ms - b.start_ms
  let gap := b.start_ms - a.end_ms
  (natAbsDiff durationA durationB > opts.duration_threshold_ms) ||
    (gap > opts.gap_threshold_ms)

/-- Split a syllable list into the maximal break-free runs walked by the
`while` loop of `apply_smoothing` (lyric_optimizer.rs:13-29, 92). -/
def splitGroupsGo (opts : SyllableSmoothingOptions) (acc : List LyricSyllable) :
    List LyricSyllable → List (List LyricSyllable)
  | [] => [acc.reverse]
  | b :: rest =>
    match acc with
    | [] => splitGroupsGo opts [b] rest
    | a :: _ =>
      if smoothBreak opts a b then acc.reverse :: splitGroupsGo opts [b] rest
      else splitGroupsGo opts (b :: acc) rest

/-- One diffusion pass over the duration vector
(lyric_optimizer.rs:54-68): endpoint weights `(1−f, f)`, interior weights
`(f, 1−2f, f)`.  Only ever applied to vectors of length ≥ 2, as in the
source. -/
def diffuseOnce (f : ℚ) (ds : List ℚ) : List ℚ :=
  List.ofFn fun i : Fin ds.length =>
    if i.val = 0 then (1 - f) * ds.getD 0 0 + f * ds.getD 1 0
    else if i.val = ds.length - 1 then
      (1 - f) * ds.getD i.val 0 + f * ds.getD (i.val - 1) 0
    else
      (1 - 2 * f) * ds.getD i.val 0 + f * ds.getD (i.val - 1) 0 +
        f * ds.getD (i.val + 1) 0

/-- `smoothing_iterations` diffusion passes. -/
def diffuseN (f : ℚ) : Nat → List ℚ → List ℚ
  | 0, ds => ds
  | n + 1, ds => diffuseN f n (diffuseOnce f ds)

/-- The inter-syllable gaps of a group (`windows(2)` with saturating
subtraction, lyric_optimizer.rs:43-46). -/
def sylGaps : List LyricSyllable → List Nat
  | a :: b :: rest => (b.start_ms - a.end_ms) :: sylGaps (b :: rest)
  | _ => []

/-- The timestamp-reassignment loop (lyric_optimizer.rs:76-85): walk from
`cur`, give each syllable its rounded new duration, then advance by the
original gap recorded after it (the last syllable has no gap entry and
leaves `cur` unchanged). -/
def reassignSyls : List ℚ → List Nat → Nat → List LyricSyllable → List LyricSyllable
  | _, _, _, [] => []
  | durs, gaps, cur, s :: rest =>
    let e := cur + qRoundNat (durs.headD 0)
    let cur' := match gaps with
      | [] => cur
      | g :: _ => e + g
    { s with start_ms := cur, end_ms := e } :: reassignSyls durs.tail gaps.tail cur' rest

/-- The endpoint repair (lyric_optimizer.rs:87-89): force the last
syllable's `end_ms` back to the original group end. -/
def forceLastEnd (e : Nat) : List LyricSyllable → List LyricSyllable
  | [] => []
  | [s] => [{ s with end_ms := e }]
  | s :: rest => s :: forceLastEnd e rest

/-- The per-group body of `apply_smoothing` (lyric_optimizer.rs:31-90):
diffuse the duration vector, rescale it to the original total (unless the
new total is essentially zero), reassign timestamps from the original
group start with the original gaps, and repair the last end. -/
def smoothGroup (opts : SyllableSmoothingOptions) (group : List LyricSyllable) :
    List LyricSyllable :=
  match group with
  | [] => []
  | first :: tail =>
    let g := first :: tail
    let originalStartMs := first.start_ms
    -- the source's `.last().unwrap()`; `g` is non-empty, so `getD` is exact
    let originalEndMs := (g.getLast?.getD first).end_ms
    let originalTotalDuration : ℚ :=
      (g.map fun s => ((s.end_ms - s.start_ms : Nat) : ℚ)).sum
    let originalGaps := sylGaps g
    let durations :=
      diffuseN opts.factor opts.smoothing_iterations
        (g.map fun s => ((s.end_ms - s.start_ms : Nat) : ℚ))
    let newTotalDuration := durations.sum
    let durations :=
      if newTotalDuration > 1 / 1000000 then
        durations.map (· * (originalTotalDuration / newTotalDuration))
      else durations
    forceLastEnd originalEndMs (reassignSyls durations originalGaps originalStartMs g)

/-- One line of `apply_smoothing` (lyric_optimizer.rs:8-94): lines with
fewer than two syllables are skipped; each maximal break-free group of
size ≥ 2 is smoothed, singleton groups are left untouched. -/
def applySmoothingLine (opts : SyllableSmoothingOptions) (syls : List LyricSyllable) :
    List LyricSyllable :=
  if syls.length < 2 then syls
  else
    ((splitGroupsGo opts [] syls).map fun g =>
      if 2 ≤ g.length then smoothGroup opts g else g).flatten

/-- `apply_smoothing` (lyric_optimizer.rs:3-95): no-op when
`smoothing_iterations == 0` or the factor is outside `[0, 0.5]`;
background syllables are never touched. -/
def apply_smoothing (opts : SyllableSmoothingOptions) (lines : List LyricLine) :
    List LyricLine :=
  if opts.smoothing_iterations = 0 ∨ ¬ (0 ≤ opts.factor ∧ opts.factor ≤ 1 / 2) then lines
  else lines.map fun l =>
    { l with main_syllables := applySmoothingLine opts l.main_syllables }

theorem forceLastEnd_getLast? (e : Nat) :
    ∀ l : List LyricSyllable, l ≠ [] →
      (forceLastEnd e l).getLast?.map (·.end_ms) = some e
  | [], h => absurd rfl h
  | [_], _ => rfl
  | s :: s' :: rest, _ => by
    cases rest with
    | nil => rfl
    | cons r rs =>
      have ih := forceLastEnd_getLast? e (s' :: r :: rs) (by simp)
      show ((s :: s' :: forceLastEnd e (r :: rs)).getLast?.map (·.end_ms)) = some e
      rw [List.getLast?_cons_cons]
      exact ih

theorem reassignSyls_ne_nil (durs : List ℚ) (gaps : List Nat) (cur : Nat)
    {l : List LyricSyllable} (h : l ≠ []) : reassignSyls durs gaps cur l ≠ [] := by
  cases l with
  | nil => exact absurd rfl h
  | cons s rest => exact List.cons_ne_nil _ _

/-- C5: for every group of size ≥ 2 that `apply_smoothing` forms, smoothing
preserves the group's first `start_ms` and last `end_ms`. -/
theorem smoothGroup_preserves_endpoints (opts : SyllableSmoothingOptions)
    (group : List LyricSyllable) (h : 2 ≤ group.length) :
    (smoothGroup opts group).head?.map (·.start_ms) = group.head?.map (·.start_ms) ∧
    (smoothGroup opts group).getLast?.map (·.end_ms) = group.getLast?.map (·.end_ms) := by
  match group, h with
  | a :: b :: rest, _ =>
    refine ⟨rfl, ?_⟩
    simp only [smoothGroup]
    rw [forceLastEnd_getLast? _ _ (reassignSyls_ne_nil _ _ _ (List.cons_ne_nil _ _))]
    rw [List.getLast?_eq_getLast (a :: b :: rest) (by simp)]
    rfl

/-- C5 witness: a concrete six-syllable group of 200 ms durations with the
default smoothing options keeps its first start (0) and last end (1200). -/
theorem smoothGroup_preserves_endpoints_witness :
    2 ≤ ([⟨"a", 0, 200, some 200, false⟩, ⟨"b", 200, 400, some 200, false⟩,
          ⟨"c", 400, 600, some 200, false⟩, ⟨"d", 600, 800, some 200, false⟩,
          ⟨"e", 800, 1000, some 200, false⟩, ⟨"f", 1000, 1200, some 200, false⟩] :
          List LyricSyllable).length ∧
    ((smoothGroup ⟨15 / 100, 50, 100, 5⟩
        [⟨"a", 0, 200, some 200, false⟩, ⟨"b", 200, 400, some 200, false⟩,
         ⟨"c", 400, 600, some 200, false⟩, ⟨"d", 600, 800, some 200, false⟩,
         ⟨"e", 800, 1000, some 200, false⟩, ⟨"f", 1000, 1200, some 200, false⟩]).head?.map
        (·.start_ms) = some 0 ∧
      (smoothGroup ⟨15 / 100, 50, 100, 5⟩
        [⟨"a", 0, 200, some 200, false⟩, ⟨"b", 200, 400, some 200, false⟩,
         ⟨"c", 400, 600, some 200, false⟩, ⟨"d", 600, 800, some 200, false⟩,
         ⟨"e", 800, 1000, some 200, false⟩, ⟨"f", 1000, 1200, some 200, false⟩]).getLast?.map
        (·.end_ms) = some 1200) := by
  refine ⟨by decide, ?_⟩
  have h := smoothGroup_preserves_endpoints ⟨15 / 100, 50, 100, 5⟩
    [⟨"a", 0, 200, some 200, false⟩, ⟨"b", 200, 400, some 200, false⟩,
     ⟨"c", 400, 600, some 200, false⟩, ⟨"d", 600, 800, some 200, false⟩,
     ⟨"e", 800, 1000, some 200, false⟩, ⟨"f", 1000, 1200, some 200, false⟩] (by decide)
  exact h

/-! ## Downstream adapter duet flags
(`convert_to_amll_lyrics`, translation.rs:163-180)

The duet decision reads only the per-line `agent` and a
`HashMap<String, bool>` first-seen map (here an association list with
unique keys, appended in insertion order so that `len()` is the list
length); the rest of the per-line conversion neither reads nor writes
the map. -/

/-- The per-line duet decision of `convert_to_amll_lyrics`
(translation.rs:169-180): `None`/chorus (`"v1000"`) are never duet,
`"v2"` is always duet, and every other agent is looked up in the
first-seen map, a new agent being assigned
`!map.len().is_multiple_of(2)` and inserted. -/
def duetStatus (agentDuetMap : List (String × Bool)) (agent : Option String) :
    Bool × List (String × Bool) :=
  match agent with
  | none => (false, agentDuetMap)
  | some agentId =>
    if agentId = "v1000" then (false, agentDuetMap)
    else if agentId = "v2" then (true, agentDuetMap)
    else
      match agentDuetMap.lookup agentId with
      | some b => (b, agentDuetMap)
      | none =>
        let newDuetStatus := !(agentDuetMap.length % 2 == 0)
        (newDuetStatus, agentDuetMap ++ [(agentId, newDuetStatus)])

/-- The duet flags assigned to a line sequence, in order (the map is
threaded through the `flat_map` closure of translation.rs:165-180 for
every input line). -/
def duetFlagsGo (m : List (String × Bool)) : List (Option String) → List Bool
  | [] => []
  | a :: rest =>
    let (b, m') := duetStatus m a
    b :: duetFlagsGo m' rest

/-- `convert_to_amll_lyrics`'s duet flags for a whole line sequence,
starting from the empty first-seen map (translation.rs:163). -/
def duetFlags (agents : List (Option String)) : List Bool :=
  duetFlagsGo [] agents

/-- C9 counterexample: agents `v1, v3, v4, v3` do *not* get the flags
`false, false, true, false` the claim asserts — `v1` is not reserved, so
it occupies the first (non-duet) alternation slot and `v3`, the second
novel agent, is duet. -/
theorem duetFlags_c9_counterexample :
    duetFlags [some "v1", some "v3", some "v4", some "v3"]
      ≠ [false, false, true, false] := by
  decide

/-- C9 amended: `v1` participates in the first-seen alternation like any
other non-reserved agent, so `v1, v3, v4, v3` yields
`false, true, false, true` (revisited `v3` keeps its first-assigned
flag); an absent or chorus (`v1000`) agent is never duet and `v2` is
always duet, whatever the map contents. -/
theorem duetFlags_c9_amended :
    duetFlags [some "v1", some "v3", some "v4", some "v3"]
      = [false, true, false, true] ∧
    ∀ m : List (String × Bool),
      (duetStatus m none).1 = false ∧
      (duetStatus m (some "v1000")).1 = false ∧
      (duetStatus m (some "v2")).1 = true := by
  refine ⟨by decide, fun m => ⟨rfl, rfl, rfl⟩⟩

/-! ## Paragraph machine (`handle_p_event` and helpers,
ttml_parser.rs:381-470 and 708-1226)

The events a `<p>` element produces on the quick-xml stream are span
starts (with their already-parsed attributes), text nodes, span ends and
`<br/>` ends; `parse_ttml` dispatches them to `process_span_start`,
`process_text_event` and `process_span_end` while `in_p` holds, and
`finalize_p_element` runs at `</p>`.  `GeneralRef` entity events
(which can only push the five non-whitespace characters `& < > " '`)
are not modelled.  Warning emission is a no-op (see the header); every
`Err(ConvertError::Internal(..))` guard on a missing `p_data` is
unreachable inside `<p>` and modelled as the identity. -/

/-- `SpanRole` (ttml_parser.rs:130-136). -/
inductive SpanRole where
  | generic
  | translation
  | romanization
  | background
deriving DecidableEq, Repr

/-- The `ttm:role` attribute mapping of `process_span_start`
(ttml_parser.rs:715-724). -/
def roleOfAttr : Option String → SpanRole
  | some "x-translation" => .translation
  | some "x-roman" => .romanization
  | some "x-bg" => .background
  | some _ => .generic
  | none => .generic

/-- `SpanContext` (ttml_parser.rs:121-128). -/
structure SpanContext where
  role : SpanRole
  lang : Option String
  scheme : Option String
  start_ms : Option Nat
  end_ms : Option Nat
deriving DecidableEq, Repr

/-- `LastSyllableInfo` (ttml_parser.rs:138-145). -/
inductive LastSyllableInfo where
  | noneInfo
  | endedSyllable (was_background : Bool)
deriving DecidableEq, Repr

/-- `BackgroundSectionData` (ttml_parser.rs:112-119). -/
structure BackgroundSectionData where
  start_ms : Nat
  end_ms : Nat
  syllables : List LyricSyllable
  translations : List TranslationEntry
  romanizations : List RomanizationEntry
deriving DecidableEq, Repr

/-- `CurrentPElementData` (ttml_parser.rs:98-110). -/
structure CurrentPElementData where
  start_ms : Nat
  end_ms : Nat
  agent : Option String
  song_part : Option String
  itunes_key : Option String
  line_text_accumulator : String
  syllables_accumulator : List LyricSyllable
  translations_accumulator : List TranslationEntry
  romanizations_accumulator : List RomanizationEntry
  background_section_accumulator : Option BackgroundSectionData
deriving DecidableEq, Repr

/-- The slice of `TtmlParserState`/`BodyParseState`
(ttml_parser.rs:55-96) live while `in_p` holds. -/
structure PState where
  is_line_timing_mode : Bool
  default_translation_lang : Option String
  default_romanization_lang : Option String
  text_buffer : String
  current_p_element_data : Option CurrentPElementData
  span_stack : List SpanContext
  last_syllable_info : LastSyllableInfo
deriving DecidableEq, Repr

/-- The events quick-xml delivers between `<p>` and `</p>`, with span
attributes already parsed as `process_span_start` would
(ttml_parser.rs:388-392, 424-467). -/
inductive PEvent where
  | spanStart (roleAttr : Option String) (lang scheme : Option String)
      (startMs endMs : Option Nat)
  | textEv (s : String)
  | spanEnd
  | brEnd
deriving DecidableEq, Repr

/-- `process_span_start` (ttml_parser.rs:708-764): clear the text buffer,
push the span context (list head = innermost), initialise the background
accumulator on the first `x-bg` span. -/
def process_span_start (roleAttr lang scheme : Option String)
    (startMs endMs : Option Nat) (st : PState) : PState :=
  let role := roleOfAttr roleAttr
  let st := { st with
    text_buffer := ""
    span_stack := ⟨role, lang, scheme, startMs, endMs⟩ :: st.span_stack }
  if role = .background then
    match st.current_p_element_data with
    | some pd =>
      match pd.background_section_accumulator with
      | none =>
        { st with current_p_element_data := some { pd with
            background_section_accumulator :=
              some ⟨startMs.getD 0, endMs.getD 0, [], [], []⟩ } }
      | some _ => st
    | none => st
  else st

/-- Set the last syllable's `ends_with_space` to true (the
`last_mut()` branch of `process_text_event`, ttml_parser.rs:787-791). -/
def setLastEwsTrue : List LyricSyllable → List LyricSyllable
  | [] => []
  | [s] => [{ s with ends_with_space := true }]
  | s :: rest => s :: setLastEwsTrue rest

/-- Set the last syllable's `ends_with_space` to false
(ttml_parser.rs:1107-1114). -/
def setLastEwsFalse : List LyricSyllable → List LyricSyllable
  | [] => []
  | [s] => [{ s with ends_with_space := false }]
  | s :: rest => s :: setLastEwsFalse rest

/-- The fall-through part of `process_text_event` (ttml_parser.rs:797-810):
drop whitespace-only text, otherwise reset `last_syllable_info` and route
the raw text to the innermost span's buffer or to the paragraph's
line-text accumulator. -/
def processTextRest (txt : String) (st : PState) : PState :=
  if strTrim txt = "" then st
  else
    let st := { st with last_syllable_info := .noneInfo }
    if st.span_stack ≠ [] then { st with text_buffer := st.text_buffer ++ txt }
    else
      match st.current_p_element_data with
      | some pd =>
        { st with current_p_element_data := some { pd with
            line_text_accumulator := pd.line_text_accumulator ++ txt } }
      | none => st

/-- `process_text_event` (ttml_parser.rs:766-811), with `in_p` known to
hold: whitespace-only text right after a produced syllable flips that
syllable's `ends_with_space` instead of being buffered. -/
def process_text_event (txt : String) (st : PState) : PState :=
  match st.last_syllable_info with
  | .endedSyllable wasBackground =>
    if txt ≠ "" && txt.data.all rustIsWhitespace then
      let st :=
        match st.current_p_element_data with
        | some pd =>
          if wasBackground then
            match pd.background_section_accumulator with
            | some bs =>
              { st with current_p_element_data := some { pd with
                  background_section_accumulator :=
                    some { bs with syllables := setLastEwsTrue bs.syllables } } }
            | none => st
          else
            { st with current_p_element_data := some { pd with
                syllables_accumulator := setLastEwsTrue pd.syllables_accumulator } }
        | none => st
      { st with last_syllable_info := .noneInfo }
    else processTextRest txt st
  | .noneInfo => processTextRest txt st

/-- `handle_generic_span_end` (ttml_parser.rs:838-917). -/
def handle_generic_span_end (ctx : SpanContext) (text : String) (st : PState) : PState :=
  if st.is_line_timing_mode then
    match st.current_p_element_data with
    | some pd =>
      { st with current_p_element_data := some { pd with
          line_text_accumulator := pd.line_text_accumulator ++ text } }
    | none => st
  else
    match ctx.start_ms, ctx.end_ms with
    | some startMs, some endMs =>
      if text ≠ "" then
        match st.current_p_element_data with
        | some pd =>
          let wasWithinBg := st.span_stack.any fun s => s.role = .background
          let trimmedText := strTrim text
          let syllable : LyricSyllable :=
            if trimmedText ≠ "" then
              { text := if wasWithinBg then clean_parentheses_from_bg_text trimmedText
                  else normalize_text_whitespace trimmedText
                start_ms := startMs
                end_ms := max endMs startMs
                duration_ms := some (endMs - startMs)
                ends_with_space := strEndsWithWs text }
            else
              { text := " ", start_ms := startMs, end_ms := max endMs startMs
                duration_ms := some (endMs - startMs), ends_with_space := false }
          if wasWithinBg then
            match pd.background_section_accumulator with
            | some bs =>
              { st with
                current_p_element_data := some { pd with
                  background_section_accumulator :=
                    some { bs with syllables := bs.syllables ++ [syllable] } }
                last_syllable_info := .endedSyllable true }
            | none => st
          else
            { st with
              current_p_element_data := some { pd with
                syllables_accumulator := pd.syllables_accumulator ++ [syllable] }
              last_syllable_info := .endedSyllable false }
        | none => st
      else st
    | _, _ => st

/-- `handle_auxiliary_span_end` (ttml_parser.rs:919-980). -/
def handle_auxiliary_span_end (ctx : SpanContext) (text : String) (st : PState) : PState :=
  let normalizedText := normalize_text_whitespace text
  if normalizedText = "" then st
  else
    match st.current_p_element_data with
    | none => st
    | some pd =>
      let wasWithinBg := st.span_stack.any fun s => s.role = .background
      let langToUse := ctx.lang.orElse fun _ =>
        match ctx.role with
        | .translation => st.default_translation_lang
        | .romanization => st.default_romanization_lang
        | _ => none
      match ctx.role with
      | .translation =>
        if wasWithinBg then
          match pd.background_section_accumulator with
          | some bs =>
            { st with current_p_element_data := some { pd with
                background_section_accumulator := some { bs with
                  translations := bs.translations ++ [⟨normalizedText, langToUse⟩] } } }
          | none => st
        else
          { st with current_p_element_data := some { pd with
              translations_accumulator :=
                pd.translations_accumulator ++ [⟨normalizedText, langToUse⟩] } }
      | .romanization =>
        if wasWithinBg then
          match pd.background_section_accumulator with
          | some bs =>
            { st with current_p_element_data := some { pd with
                background_section_accumulator := some { bs with
                  romanizations :=
                    bs.romanizations ++ [⟨normalizedText, langToUse, ctx.scheme⟩] } } }
          | none => st
        else
          { st with current_p_element_data := some { pd with
              romanizations_accumulator :=
                pd.romanizations_accumulator ++ [⟨normalizedText, langToUse, ctx.scheme⟩] } }
      | _ => st

/-- `handle_background_span_end` (ttml_parser.rs:982-1045). -/
def handle_background_span_end (ctx : SpanContext) (text : String) (st : PState) : PState :=
  match st.current_p_element_data with
  | none => st
  | some pd =>
    let pd :=
      match pd.background_section_accumulator with
      | some bgAcc =>
        if (ctx.start_ms = none ∨ ctx.end_ms = none) ∧ bgAcc.syllables ≠ [] then
          { pd with background_section_accumulator := some { bgAcc with
              start_ms :=
                match bgAcc.syllables.map (·.start_ms) with
                | [] => bgAcc.start_ms
                | x :: xs => xs.foldl min x
              end_ms :=
                match bgAcc.syllables.map (·.end_ms) with
                | [] => bgAcc.end_ms
                | x :: xs => xs.foldl max x } }
        else pd
      | none => pd
    let st := { st with current_p_element_data := some pd }
    let trimmedText := strTrim text
    if trimmedText ≠ "" then
      match ctx.start_ms, ctx.end_ms with
      | some startMs, some endMs =>
        match pd.background_section_accumulator with
        | some bgAcc =>
          if bgAcc.syllables = [] then
            { st with
              current_p_element_data := some { pd with
                background_section_accumulator := some { bgAcc with
                  syllables := [{ text := normalize_text_whitespace trimmedText
                                  start_ms := startMs
                                  end_ms := max endMs startMs
                                  duration_ms := some (endMs - startMs)
                                  ends_with_space :=
                                    text ≠ "" && strEndsWithWs text }] } }
              last_syllable_info := .endedSyllable true }
          else st
        | none => st
      | _, _ => st
    else st

/-- `process_span_end` (ttml_parser.rs:813-836): reset
`last_syllable_info`, pop the innermost span, take the text buffer and
dispatch on the span's role. -/
def process_span_end (st : PState) : PState :=
  let st := { st with last_syllable_info := .noneInfo }
  match st.span_stack with
  | [] => st
  | ctx :: rest =>
    let text := st.text_buffer
    let st := { st with span_stack := rest, text_buffer := "" }
    match ctx.role with
    | .generic => handle_generic_span_end ctx text st
    | .translation => handle_auxiliary_span_end ctx text st
    | .romanization => handle_auxiliary_span_end ctx text st
    | .background => handle_background_span_end ctx text st

/-- The dispatch of `handle_p_event` (ttml_parser.rs:381-470) for one
event (a `</br>` is warned about and ignored). -/
def handlePEvent (st : PState) (ev : PEvent) : PState :=
  match ev with
  | .spanStart roleAttr lang scheme startMs endMs =>
    process_span_start roleAttr lang scheme startMs endMs st
  | .textEv s => process_text_event s st
  | .spanEnd => process_span_end st
  | .brEnd => st

/-- Run the paragraph machine over an event list. -/
def runP (st : PState) (evs : List PEvent) : PState :=
  evs.foldl handlePEvent st

/-- Assemble a line text from syllables, inserting a space after each
syllable with `ends_with_space` (ttml_parser.rs:1151-1160 and
1213-1223). -/
def assembleFromSyllables (syls : List LyricSyllable) : String :=
  String.join (syls.map fun s => if s.ends_with_space then s.text ++ " " else s.text)

/-- `finalize_p_for_line_mode` (ttml_parser.rs:1142-1177): the line text
is the accumulator, reconstructed from stray syllables when blank; the
syllables themselves are discarded with a warning. -/
def finalize_p_for_line_mode (finalLine : LyricLine) (lineTextAccumulator : String)
    (syllablesAccumulator : List LyricSyllable) : LyricLine :=
  let lineTextContent :=
    if strTrim lineTextAccumulator = "" ∧ syllablesAccumulator ≠ [] then
      assembleFromSyllables syllablesAccumulator
    else lineTextAccumulator
  { finalLine with line_text := some (normalize_text_whitespace lineTextContent) }

/-- `finalize_p_for_word_mode` (ttml_parser.rs:1179-1226): adopt the
syllables; uncovered paragraph text becomes a single synthetic syllable
only if there are no syllables (otherwise it is dropped with a warning);
then assemble `line_text` from the syllables if still unset. -/
def finalize_p_for_word_mode (finalLine : LyricLine)
    (syllablesAccumulator : List LyricSyllable)
    (lineTextAccumulator : String) : LyricLine :=
  let finalLine := { finalLine with main_syllables := syllablesAccumulator }
  let unhandledPText := normalize_text_whitespace lineTextAccumulator
  let finalLine :=
    if unhandledPText ≠ "" then
      if finalLine.main_syllables = [] then
        { finalLine with main_syllables :=
            [{ text := unhandledPText
               start_ms := finalLine.start_ms
               end_ms := max finalLine.end_ms finalLine.start_ms
               duration_ms := some (finalLine.end_ms - finalLine.start_ms)
               ends_with_space := false }] }
      else finalLine
    else finalLine
  if finalLine.line_text = none ∧ finalLine.main_syllables ≠ [] then
    { finalLine with
        line_text := some (strTrimEnd (assembleFromSyllables finalLine.main_syllables)) }
  else finalLine

/-- The background attachment of `finalize_p_element`
(ttml_parser.rs:1093-1105). -/
def attachBackground (bgData : Option BackgroundSectionData) (finalLine : LyricLine) :
    LyricLine :=
  match bgData with
  | some bg =>
    if bg.syllables ≠ [] ∨ bg.translations ≠ [] ∨ bg.romanizations ≠ [] then
      { finalLine with background_section :=
          (some ⟨bg.start_ms, bg.end_ms, bg.syllables, bg.translations, bg.romanizations⟩) }
    else finalLine
  | none => finalLine

/-- The trailing `ends_with_space := false` enforcement of
`finalize_p_element` (ttml_parser.rs:1107-1114). -/
def forceTrailingEws (finalLine : LyricLine) : LyricLine :=
  let finalLine :=
    { finalLine with main_syllables := setLastEwsFalse finalLine.main_syllables }
  match finalLine.background_section with
  | some bs =>
    { finalLine with background_section :=
        (some { bs with syllables := setLastEwsFalse bs.syllables }) }
  | none => finalLine

/-- The whole-line synthetic syllable of `finalize_p_element`
(ttml_parser.rs:1116-1127): no syllables, a non-empty `line_text` and a
positive duration synthesize one syllable covering the line. -/
def synthesizeIfEmpty (finalLine : LyricLine) : LyricLine :=
  if finalLine.main_syllables = [] then
    match finalLine.line_text with
    | some lineText =>
      if lineText ≠ "" ∧ finalLine.start_ms < finalLine.end_ms then
        { finalLine with main_syllables :=
            [{ text := lineText
               start_ms := finalLine.start_ms
               end_ms := finalLine.end_ms
               duration_ms := some (finalLine.end_ms - finalLine.start_ms)
               ends_with_space := false }] }
      else finalLine
    | none => finalLine
  else finalLine

/-- The empty-line filter of `finalize_p_element`
(ttml_parser.rs:1129-1137). -/
def isDroppedLine (finalLine : LyricLine) : Bool :=
  finalLine.main_syllables = [] &&
  (finalLine.line_text.getD "") = "" &&
  finalLine.translations = [] &&
  finalLine.romanizations = [] &&
  finalLine.background_section = none &&
  finalLine.end_ms ≤ finalLine.start_ms

/-- The `itunes:key` translation injection performed at `</p>` before
finalization (ttml_parser.rs:441-455), with the metadata
`translation_map` as an association list. -/
def injectItunesTranslation (translationMap : List (String × String × Option String))
    (pd : CurrentPElementData) : CurrentPElementData :=
  match pd.itunes_key with
  | some key =>
    match translationMap.lookup key with
    | some (text, lang) =>
      if pd.translations_accumulator.all fun t => t.text ≠ text then
        { pd with translations_accumulator :=
            pd.translations_accumulator ++ [⟨text, lang⟩] }
      else pd
    | none => pd
  | none => pd

/-- `finalize_p_element` (ttml_parser.rs:1047-1140): `none` when the
empty-line predicate drops the line. -/
def finalize_p_element (isLineTimingMode : Bool) (pd : CurrentPElementData) :
    Option LyricLine :=
  let finalLine : LyricLine :=
    { start_ms := pd.start_ms
      end_ms := pd.end_ms
      line_text := none
      main_syllables := []
      translations := pd.translations_accumulator
      romanizations := pd.romanizations_accumulator
      agent := pd.agent.orElse fun _ => some "v1"
      background_section := none
      song_part := pd.song_part
      itunes_key := pd.itunes_key }
  let finalLine :=
    if isLineTimingMode then
      finalize_p_for_line_mode finalLine pd.line_text_accumulator pd.syllables_accumulator
    else
      finalize_p_for_word_mode finalLine pd.syllables_accumulator pd.line_text_accumulator
  let finalLine := attachBackground pd.background_section_accumulator finalLine
  let finalLine := synthesizeIfEmpty (forceTrailingEws finalLine)
  if isDroppedLine finalLine then none else some finalLine

/-- The fresh accumulator built at `<p>` (ttml_parser.rs:245-289). -/
def initPData (startMs endMs : Nat) (agent songPart itunesKey : Option String) :
    CurrentPElementData :=
  ⟨startMs, endMs, agent, songPart, itunesKey, "", [], [], [], none⟩

/-- The machine state right after `<p>` (ttml_parser.rs:286-288: fresh
text buffer, empty span stack). -/
def initPState (isLineTimingMode : Bool) (defTranslationLang defRomanizationLang : Option String)
    (pd : CurrentPElementData) : PState :=
  ⟨isLineTimingMode, defTranslationLang, defRomanizationLang, "", some pd, [], .noneInfo⟩

/-- One full paragraph: run the machine over the events between `<p>` and
`</p>`, then inject the `itunes:key` translation and finalize
(ttml_parser.rs:440-461). -/
def processParagraph (isLineTimingMode : Bool)
    (defTranslationLang defRomanizationLang : Option String)
    (translationMap : List (String × String × Option String))
    (startMs endMs : Nat) (agent songPart itunesKey : Option String)
    (evs : List PEvent) : Option LyricLine :=
  let st := runP (initPState isLineTimingMode defTranslationLang defRomanizationLang
    (initPData startMs endMs agent songPart itunesKey)) evs
  match st.current_p_element_data with
  | some pd => finalize_p_element isLineTimingMode (injectItunesTranslation translationMap pd)
  | none => none

/-! ## Invariants of the paragraph machine -/

theorem strTrim_eq_empty_iff (s : String) :
    strTrim s = "" ↔ s.data.all rustIsWhitespace := by
  rw [String.ext_iff]
  show ((s.data.dropWhile rustIsWhitespace).reverse.dropWhile rustIsWhitespace).reverse
      = [] ↔ _
  rw [List.reverse_eq_nil_iff, List.dropWhile_eq_nil_iff, List.all_eq_true]
  constructor
  · intro h x hx
    rcases List.mem_append.mp
        (by rw [List.takeWhile_append_dropWhile rustIsWhitespace s.data]; exact hx :
          x ∈ s.data.takeWhile rustIsWhitespace ++ s.data.dropWhile rustIsWhitespace) with
      h1 | h1
    · exact List.mem_takeWhile_imp h1
    · exact h x (List.mem_reverse.mpr h1)
  · intro h x hx
    exact h x ((List.dropWhile_sublist _).subset (List.mem_reverse.mp hx))

theorem setLastEwsTrue_map_start :
    ∀ l : List LyricSyllable, (setLastEwsTrue l).map (·.start_ms) = l.map (·.start_ms)
  | [] => rfl
  | [_] => rfl
  | s :: s' :: rest => by
    have ih := setLastEwsTrue_map_start (s' :: rest)
    show s.start_ms :: (setLastEwsTrue (s' :: rest)).map (·.start_ms)
        = s.start_ms :: (s' :: rest).map (·.start_ms)
    rw [ih]

theorem setLastEwsFalse_map_start :
    ∀ l : List LyricSyllable, (setLastEwsFalse l).map (·.start_ms) = l.map (·.start_ms)
  | [] => rfl
  | [_] => rfl
  | s :: s' :: rest => by
    have ih := setLastEwsFalse_map_start (s' :: rest)
    show s.start_ms :: (setLastEwsFalse (s' :: rest)).map (·.start_ms)
        = s.start_ms :: (s' :: rest).map (·.start_ms)
    rw [ih]

theorem setLastEwsFalse_getLast? :
    ∀ l : List LyricSyllable, ∀ s, (setLastEwsFalse l).getLast? = some s →
      s.ends_with_space = false
  | [], _, h => by simp [setLastEwsFalse] at h
  | [x], s, h => by
    simp only [setLastEwsFalse, List.getLast?_singleton, Option.some.injEq] at h
    rw [← h]
  | x :: x' :: rest, s, h => by
    apply setLastEwsFalse_getLast? (x' :: rest) s
    cases rest with
    | nil => simpa [setLastEwsFalse] using h
    | cons r rs =>
      rw [show setLastEwsFalse (x :: x' :: r :: rs)
          = x :: x' :: setLastEwsFalse (r :: rs) from rfl, List.getLast?_cons_cons] at h
      rw [show setLastEwsFalse (x' :: r :: rs)
          = x' :: setLastEwsFalse (r :: rs) from rfl]
      exact h

theorem forceTrailingEws_prop (line : LyricLine) :
    (∀ s, (forceTrailingEws line).main_syllables.getLast? = some s →
      s.ends_with_space = false) ∧
    (∀ bs s, (forceTrailingEws line).background_section = some bs →
      bs.syllables.getLast? = some s → s.ends_with_space = false) := by
  obtain ⟨ls, le, lt, lm, ltr, lro, lag, lbg, lsp, lik⟩ := line
  cases lbg with
  | none =>
    refine ⟨fun s hs => setLastEwsFalse_getLast? lm s hs, fun bs s hbs _ => ?_⟩
    exact absurd hbs (by simp [forceTrailingEws])
  | some bs0 =>
    refine ⟨fun s hs => setLastEwsFalse_getLast? lm s hs, fun bs s hbs hlast => ?_⟩
    have hbs' : ({ bs0 with syllables := setLastEwsFalse bs0.syllables }
        : BackgroundSection) = bs := by
      have : (forceTrailingEws ⟨ls, le, lt, lm, ltr, lro, lag, some bs0, lsp, lik⟩
          ).background_section
          = some { bs0 with syllables := setLastEwsFalse bs0.syllables } := rfl
      rw [this] at hbs
      exact Option.some.inj hbs
    subst hbs'
    exact setLastEwsFalse_getLast? bs0.syllables s hlast

theorem synthesizeIfEmpty_bg (line : LyricLine) :
    (synthesizeIfEmpty line).background_section = line.background_section := by
  unfold synthesizeIfEmpty
  split
  · split
    · split
      · rfl
      · rfl
    · rfl
  · rfl

theorem synthesizeIfEmpty_prop (line : LyricLine)
    (hmain : ∀ s, line.main_syllables.getLast? = some s → s.ends_with_space = false)
    (hbg : ∀ bs s, line.background_section = some bs →
      bs.syllables.getLast? = some s → s.ends_with_space = false) :
    (∀ s, (synthesizeIfEmpty line).main_syllables.getLast? = some s →
      s.ends_with_space = false) ∧
    (∀ bs s, (synthesizeIfEmpty line).background_section = some bs →
      bs.syllables.getLast? = some s → s.ends_with_space = false) := by
  refine ⟨?_, fun bs s hb hl => hbg bs s (by rw [← synthesizeIfEmpty_bg]; exact hb) hl⟩
  intro s hs
  unfold synthesizeIfEmpty at hs
  split at hs
  · split at hs
    · split at hs
      · simp only [List.getLast?_singleton, Option.some.injEq] at hs
        rw [← hs]
      · exact hmain s hs
    · exact hmain s hs
  · exact hmain s hs

/-- The trailing-`ends_with_space` property of every line that passes the
empty-line filter. -/
theorem finalize_emit_prop (line0 : LyricLine) (l : LyricLine)
    (h : (if isDroppedLine (synthesizeIfEmpty (forceTrailingEws line0)) then none
          else some (synthesizeIfEmpty (forceTrailingEws line0))) = some l) :
    (∀ s, l.main_syllables.getLast? = some s → s.ends_with_space = false) ∧
    (∀ bs s, l.background_section = some bs → bs.syllables.getLast? = some s →
      s.ends_with_space = false) := by
  split at h
  · exact absurd h (by simp)
  · obtain ⟨hm, hb⟩ := forceTrailingEws_prop line0
    have h2 := synthesizeIfEmpty_prop (forceTrailingEws line0) hm hb
    rw [Option.some.inj h] at h2
    exact h2

/-- C6: every line `finalize_p_element` emits has a trailing main syllable
with `ends_with_space = false` (when any), and likewise for its background
section's syllables.  Lines enter `ParsedSourceData.lines` only through
this function. -/
theorem finalize_p_element_trailing_ews (isLineTimingMode : Bool)
    (pd : CurrentPElementData) (l : LyricLine)
    (h : finalize_p_element isLineTimingMode pd = some l) :
    (∀ s, l.main_syllables.getLast? = some s → s.ends_with_space = false) ∧
    (∀ bs s, l.background_section = some bs → bs.syllables.getLast? = some s →
      s.ends_with_space = false) := by
  simp only [finalize_p_element] at h
  exact finalize_emit_prop _ l h

/-- Concrete paragraph data for the C6 witness: two main syllables and one
background syllable, all carrying `ends_with_space = true` before
finalization. -/
def c6WitnessPd : CurrentPElementData :=
  ⟨0, 1000, none, none, none, "",
   [⟨"Hi", 0, 500, some 500, true⟩, ⟨"There", 500, 1000, some 500, true⟩],
   [], [],
   some ⟨1000, 2000, [⟨"echo", 1000, 2000, some 1000, true⟩], [], []⟩⟩

/-- The line `finalize_p_element` emits for `c6WitnessPd`. -/
def c6WitnessLine : LyricLine :=
  ⟨0, 1000, some "Hi There",
   [⟨"Hi", 0, 500, some 500, true⟩, ⟨"There", 500, 1000, some 500, false⟩],
   [], [], some "v1",
   some ⟨1000, 2000, [⟨"echo", 1000, 2000, some 1000, false⟩], [], []⟩,
   none, none⟩

/-- C6 witness: on `c6WitnessPd` the finalizer emits `c6WitnessLine`, whose
trailing main and background syllables have `ends_with_space = false`. -/
theorem finalize_p_element_trailing_ews_witness :
    finalize_p_element false c6WitnessPd = some c6WitnessLine ∧
    (⟨"There", 500, 1000, some 500, false⟩ : LyricSyllable).ends_with_space = false ∧
    (⟨"echo", 1000, 2000, some 1000, false⟩ : LyricSyllable).ends_with_space = false :=
  ⟨by decide,
   (finalize_p_element_trailing_ews false c6WitnessPd c6WitnessLine (by decide)).1
     ⟨"There", 500, 1000, some 500, false⟩ (by decide),
   (finalize_p_element_trailing_ews false c6WitnessPd c6WitnessLine (by decide)).2
     ⟨1000, 2000, [⟨"echo", 1000, 2000, some 1000, false⟩], [], []⟩
     ⟨"echo", 1000, 2000, some 1000, false⟩ (by decide) (by decide)⟩

/-- C4 counterexample: in word-timed mode, a generic span with valid
`begin`/`end` (0–100 ms) that contains *no* text produces no syllable at
all — `handle_generic_span_end`'s `if !text.is_empty()` guard skips both
syllable branches — so the emitted line (kept by its positive duration)
has an empty `main_syllables`, not a single-space syllable. -/
theorem empty_span_no_syllable_counterexample :
    (processParagraph false none none [] 0 1000 none none none
        [.spanStart none none none (some 0) (some 100), .spanEnd]).map
        (·.main_syllables) = some [] ∧
    (processParagraph false none none [] 0 1000 none none none
        [.spanStart none none none (some 0) (some 100), .spanEnd]).map
        (·.main_syllables)
      ≠ some [⟨" ", 0, 100, some 100, false⟩] := by
  constructor <;> decide

/-- C4 amended: the single-space syllable appears only for a *non-empty,
whitespace-only* buffered span text — then `handle_generic_span_end`
(word mode, both times present, not inside `x-bg`) appends exactly the
syllable `⟨" ", begin, max end begin, some (end − begin), false⟩`. -/
theorem handle_generic_span_end_space_syllable (st : PState) (pd : CurrentPElementData)
    (ctx : SpanContext) (text : String) (b e : Nat)
    (hmode : st.is_line_timing_mode = false)
    (hpd : st.current_p_element_data = some pd)
    (hs : ctx.start_ms = some b) (he : ctx.end_ms = some e)
    (hne : text ≠ "") (hws : text.data.all rustIsWhitespace)
    (hbg : st.span_stack.any (fun sc => sc.role = SpanRole.background) = false) :
    handle_generic_span_end ctx text st = { st with
      current_p_element_data := some { pd with syllables_accumulator :=
        pd.syllables_accumulator ++ [⟨" ", b, max e b, some (e - b), false⟩] }
      last_syllable_info := .endedSyllable false } := by
  have htrim : strTrim text = "" := (strTrim_eq_empty_iff text).mpr hws
  simp only [handle_generic_span_end, hmode, hpd, hs, he, hbg, htrim]
  rw [if_pos hne]
  simp

/-- C4 amended witness: a fresh word-mode paragraph state and a generic
span holding the single space `" "` with times 0–100 ms gets the
single-space syllable with `ends_with_space = false`. -/
theorem handle_generic_span_end_space_syllable_witness :
    ((initPState false none none (initPData 0 1000 none none none)).is_line_timing_mode
        = false ∧ (" " : String) ≠ "" ∧ (" " : String).data.all rustIsWhitespace = true) ∧
    handle_generic_span_end ⟨.generic, none, none, some 0, some 100⟩ " "
        (initPState false none none (initPData 0 1000 none none none))
      = { initPState false none none (initPData 0 1000 none none none) with
          current_p_element_data := some { initPData 0 1000 none none none with
            syllables_accumulator := [⟨" ", 0, max 100 0, some (100 - 0), false⟩] }
          last_syllable_info := .endedSyllable false } :=
  ⟨⟨rfl, by decide, by decide⟩,
   handle_generic_span_end_space_syllable
     (initPState false none none (initPData 0 1000 none none none))
     (initPData 0 1000 none none none)
     ⟨.generic, none, none, some 0, some 100⟩ " " 0 100
     rfl rfl rfl rfl (by decide) (by decide) rfl⟩

/-! ## Syllable order (claim C3)

The parser appends syllables in document order and never sorts, so
monotonicity of `start_ms` holds exactly when the document's timed spans
already carry non-decreasing `begin` values.  The theorems below treat a
paragraph given as a flat sequence of timed generic spans
`<span begin end>text</span>`, the shape of scenario S1. -/

/-- The event list of a flat sequence of timed generic spans. -/
def flatSpanEvents : List (Nat × Nat × String) → List PEvent
  | [] => []
  | (b, e, t) :: rest =>
    .spanStart none none none (some b) (some e) :: .textEv t :: .spanEnd ::
      flatSpanEvents rest

theorem process_text_event_ws (t : String) (mode : Bool) (d1 d2 : Option String)
    (buf : String) (pd : CurrentPElementData) (stack : List SpanContext)
    (info : LastSyllableInfo) (hW : strTrim t = "") :
    ∃ pd' info', process_text_event t ⟨mode, d1, d2, buf, some pd, stack, info⟩
        = ⟨mode, d1, d2, buf, some pd', stack, info'⟩ ∧
      pd'.syllables_accumulator.map (·.start_ms)
        = pd.syllables_accumulator.map (·.start_ms) := by
  cases info with
  | noneInfo =>
    refine ⟨pd, .noneInfo, ?_, rfl⟩
    show processTextRest t _ = _
    simp [processTextRest, hW]
  | endedSyllable wasBg =>
    by_cases ht : t = ""
    · refine ⟨pd, .endedSyllable wasBg, ?_, rfl⟩
      show process_text_event t ⟨mode, d1, d2, buf, some pd, stack, .endedSyllable wasBg⟩
          = _
      simp only [process_text_event, ht]
      simp [processTextRest, hW.symm ▸ hW, strTrim, show strTrim "" = "" from rfl]
    · have hws : t.data.all rustIsWhitespace := (strTrim_eq_empty_iff t).mp hW
      cases wasBg with
      | false =>
        refine ⟨({ pd with
            syllables_accumulator := setLastEwsTrue pd.syllables_accumulator }),
          .noneInfo, ?_, setLastEwsTrue_map_start pd.syllables_accumulator⟩
        show process_text_event t _ = _
        simp [process_text_event, ht, hws]
      | true =>
        cases hbg : pd.background_section_accumulator with
        | none =>
          refine ⟨pd, .noneInfo, ?_, rfl⟩
          show process_text_event t _ = _
          simp [process_text_event, ht, hws, hbg]
        | some bs =>
          refine ⟨({ pd with
              background_section_accumulator :=
                some { bs with syllables := setLastEwsTrue bs.syllables } }),
            .noneInfo, ?_, rfl⟩
          show process_text_event t _ = _
          simp [process_text_event, ht, hws, hbg]

theorem process_text_event_nws (t : String) (mode : Bool) (d1 d2 : Option String)
    (buf : String) (pd : CurrentPElementData) (c : SpanContext)
    (stack : List SpanContext) (info : LastSyllableInfo) (hNW : strTrim t ≠ "") :
    process_text_event t ⟨mode, d1, d2, buf, some pd, c :: stack, info⟩
      = ⟨mode, d1, d2, buf ++ t, some pd, c :: stack, .noneInfo⟩ := by
  have hws : t.data.all rustIsWhitespace = false := by
    cases h : t.data.all rustIsWhitespace with
    | false => rfl
    | true => exact absurd ((strTrim_eq_empty_iff t).mpr h) hNW
  cases info with
  | noneInfo =>
    show processTextRest t _ = _
    simp [processTextRest, hNW]
  | endedSyllable wasBg =>
    show process_text_event t _ = _
    simp only [process_text_event, hws, Bool.and_false]
    show processTextRest t _ = _
    simp [processTextRest, hNW]

theorem handle_generic_span_end_main (d1 d2 : Option String) (pd : CurrentPElementData)
    (b e : Nat) (t : String) (hNW : strTrim t ≠ "") :
    handle_generic_span_end ⟨.generic, none, none, some b, some e⟩ t
        ⟨false, d1, d2, "", some pd, [], .noneInfo⟩
      = ⟨false, d1, d2, "", some ({ pd with
          syllables_accumulator := pd.syllables_accumulator ++
            [⟨normalize_text_whitespace (strTrim t), b, max e b, some (e - b),
              strEndsWithWs t⟩] }), [], .endedSyllable false⟩ := by
  have ht : t ≠ "" := by
    intro h
    exact hNW (by rw [h]; rfl)
  simp only [handle_generic_span_end]
  rw [if_pos ht]
  simp [hNW]

theorem strNilAppend (t : String) : "" ++ t = t := by
  cases t with
  | mk d => rfl

theorem runP_step (d1 d2 : Option String) (pd : CurrentPElementData)
    (info : LastSyllableInfo) (b e : Nat) (t : String) :
    ∃ pd' info',
      runP ⟨false, d1, d2, "", some pd, [], info⟩
          [.spanStart none none none (some b) (some e), .textEv t, .spanEnd]
        = ⟨false, d1, d2, "", some pd', [], info'⟩ ∧
      ∃ w, pd'.syllables_accumulator.map (·.start_ms)
          = pd.syllables_accumulator.map (·.start_ms) ++ w ∧ w.Sublist [b] := by
  by_cases hW : strTrim t = ""
  · obtain ⟨pd2, info2, heq, hmap⟩ := process_text_event_ws t false d1 d2 ""
      pd [⟨.generic, none, none, some b, some e⟩] info hW
    refine ⟨pd2, .noneInfo, ?_, [], by rw [hmap, List.append_nil], List.nil_sublist _⟩
    show process_span_end (process_text_event t
        ⟨false, d1, d2, "", some pd, [⟨.generic, none, none, some b, some e⟩], info⟩) = _
    rw [heq]
    rfl
  · have heq := process_text_event_nws t false d1 d2 "" pd
      ⟨.generic, none, none, some b, some e⟩ [] info hW
    refine ⟨({ pd with
        syllables_accumulator := pd.syllables_accumulator ++
          [⟨normalize_text_whitespace (strTrim t), b, max e b, some (e - b),
            strEndsWithWs t⟩] }), .endedSyllable false, ?_, [b],
      by simp, List.Sublist.refl _⟩
    show process_span_end (process_text_event t
        ⟨false, d1, d2, "", some pd, [⟨.generic, none, none, some b, some e⟩], info⟩) = _
    rw [heq]
    show handle_generic_span_end ⟨.generic, none, none, some b, some e⟩ ("" ++ t)
        ⟨false, d1, d2, "", some pd, [], .noneInfo⟩ = _
    rw [strNilAppend]
    exact handle_generic_span_end_main d1 d2 pd b e t hW

theorem runP_append (st : PState) (xs ys : List PEvent) :
    runP st (xs ++ ys) = runP (runP st xs) ys := by
  simp [runP, List.foldl_append]

theorem runP_flatSpans (d1 d2 : Option String) :
    ∀ (spans : List (Nat × Nat × String)) (pd : CurrentPElementData)
      (info : LastSyllableInfo),
    ∃ pd' info',
      runP ⟨false, d1, d2, "", some pd, [], info⟩ (flatSpanEvents spans)
        = ⟨false, d1, d2, "", some pd', [], info'⟩ ∧
      ∃ w, pd'.syllables_accumulator.map (·.start_ms)
          = pd.syllables_accumulator.map (·.start_ms) ++ w ∧
        w.Sublist (spans.map (·.1))
  | [], pd, info => ⟨pd, info, rfl, [], by simp, by simp⟩
  | (b, e, t) :: rest, pd, info => by
    obtain ⟨pd1, info1, heq1, w1, hmap1, hsub1⟩ := runP_step d1 d2 pd info b e t
    obtain ⟨pd2, info2, heq2, w2, hmap2, hsub2⟩ := runP_flatSpans d1 d2 rest pd1 info1
    refine ⟨pd2, info2, ?_, w1 ++ w2, ?_, ?_⟩
    · have hev : flatSpanEvents ((b, e, t) :: rest)
          = [.spanStart none none none (some b) (some e), .textEv t, .spanEnd]
            ++ flatSpanEvents rest := rfl
      rw [hev, runP_append, heq1, heq2]
    · rw [hmap2, hmap1, List.append_assoc]
    · exact hsub1.append hsub2

theorem attachBackground_main (bgData : Option BackgroundSectionData) (line : LyricLine) :
    (attachBackground bgData line).main_syllables = line.main_syllables := by
  unfold attachBackground
  split
  · split
    · rfl
    · rfl
  · rfl

theorem forceTrailingEws_main_map (line : LyricLine) :
    (forceTrailingEws line).main_syllables.map (·.start_ms)
      = line.main_syllables.map (·.start_ms) := by
  simp only [forceTrailingEws]
  split
  · exact setLastEwsFalse_map_start _
  · exact setLastEwsFalse_map_start _

theorem synthesizeIfEmpty_main (line : LyricLine) :
    (synthesizeIfEmpty line).main_syllables = line.main_syllables ∨
    ∃ s, (synthesizeIfEmpty line).main_syllables = [s] := by
  unfold synthesizeIfEmpty
  split
  · split
    · split
      · right; exact ⟨_, rfl⟩
      · left; rfl
    · left; rfl
  · left; rfl

theorem finalize_p_for_word_mode_main (base : LyricLine) (syls : List LyricSyllable)
    (lta : String) :
    (finalize_p_for_word_mode base syls lta).main_syllables = syls ∨
    ∃ s, (finalize_p_for_word_mode base syls lta).main_syllables = [s] := by
  simp only [finalize_p_for_word_mode]
  split
  · split
    · split
      · right; exact ⟨_, rfl⟩
      · right; exact ⟨_, rfl⟩
    · split
      · left; rfl
      · left; rfl
  · split
    · left; rfl
    · left; rfl

theorem injectItunesTranslation_syllables
    (translationMap : List (String × String × Option String))
    (pd : CurrentPElementData) :
    (injectItunesTranslation translationMap pd).syllables_accumulator
      = pd.syllables_accumulator := by
  unfold injectItunesTranslation
  split
  · split
    · split
      · rfl
      · rfl
    · rfl
  · rfl

theorem finalize_word_mode_starts (pd : CurrentPElementData) (l : LyricLine)
    (h : finalize_p_element false pd = some l) :
    l.main_syllables.map (·.start_ms) = pd.syllables_accumulator.map (·.start_ms) ∨
    ∃ x, l.main_syllables.map (·.start_ms) = [x] := by
  simp only [finalize_p_element, Bool.false_eq_true, if_false] at h
  split at h
  · exact absurd h (by simp)
  · have hXl := Option.some.inj h
    rw [← hXl]
    rcases synthesizeIfEmpty_main (forceTrailingEws (attachBackground
        pd.background_section_accumulator (finalize_p_for_word_mode
          { start_ms := pd.start_ms, end_ms := pd.end_ms, line_text := none,
            main_syllables := [], translations := pd.translations_accumulator,
            romanizations := pd.romanizations_accumulator,
            agent := pd.agent.orElse fun _ => some "v1", background_section := none,
            song_part := pd.song_part, itunes_key := pd.itunes_key }
          pd.syllables_accumulator pd.line_text_accumulator))) with h1 | h1
    · rw [h1, forceTrailingEws_main_map, attachBackground_main]
      rcases finalize_p_for_word_mode_main
          { start_ms := pd.start_ms, end_ms := pd.end_ms, line_text := none,
            main_syllables := [], translations := pd.translations_accumulator,
            romanizations := pd.romanizations_accumulator,
            agent := pd.agent.orElse fun _ => some "v1", background_section := none,
            song_part := pd.song_part, itunes_key := pd.itunes_key }
          pd.syllables_accumulator pd.line_text_accumulator with h2 | h2
      · left; rw [h2]
      · obtain ⟨s, h2⟩ := h2
        right; exact ⟨s.start_ms, by rw [h2]; rfl⟩
    · obtain ⟨s, h1⟩ := h1
      right; exact ⟨s.start_ms, by rw [h1]; rfl⟩

/-- `Chain'` on `start_ms` follows from `Chain'` on the mapped starts. -/
theorem chain'_start_of_map (l : List LyricSyllable)
    (h : List.Chain' (· ≤ ·) (l.map (·.start_ms))) :
    List.Chain' (fun a b => a.start_ms ≤ b.start_ms) l :=
  (List.chain'_map (fun s : LyricSyllable => s.start_ms)).mp h

/-- C3 amended: the parser appends syllables in document order and never
sorts; for a word-timed paragraph whose timed generic spans form a flat
sequence with non-decreasing `begin` attributes, consecutive syllables of
the emitted line satisfy `s_i.start_ms ≤ s_{i+1}.start_ms`. -/
theorem processParagraph_sorted_spans_monotonic (d1 d2 : Option String)
    (translationMap : List (String × String × Option String)) (ps pe : Nat)
    (ag sp ik : Option String) (spans : List (Nat × Nat × String))
    (hsorted : List.Pairwise (· ≤ ·) (spans.map (·.1)))
    (l : LyricLine)
    (h : processParagraph false d1 d2 translationMap ps pe ag sp ik
        (flatSpanEvents spans) = some l) :
    List.Chain' (fun a b => a.start_ms ≤ b.start_ms) l.main_syllables := by
  obtain ⟨pd', info', heq, w, hmap, hsub⟩ :=
    runP_flatSpans d1 d2 spans (initPData ps pe ag sp ik) .noneInfo
  simp only [processParagraph, initPState] at h
  rw [heq] at h
  have h2 : finalize_p_element false (injectItunesTranslation translationMap pd')
      = some l := h
  apply chain'_start_of_map
  rcases finalize_word_mode_starts _ l h2 with hstart | hstart
  · rw [injectItunesTranslation_syllables] at hstart
    rw [hstart, hmap]
    have hinit : (initPData ps pe ag sp ik).syllables_accumulator.map (·.start_ms)
        = [] := rfl
    rw [hinit, List.nil_append]
    exact (hsorted.sublist hsub).chain'
  · obtain ⟨x, hstart⟩ := hstart
    rw [hstart]
    exact List.chain'_singleton x

/-- C3 counterexample: the same paragraph with its two timed spans in
decreasing `begin` order (5000 ms before 1000 ms) yields a line whose
consecutive main syllables violate `start_ms` monotonicity — the parser
keeps document order. -/
theorem processParagraph_unsorted_counterexample :
    (processParagraph false none none [] 0 10000 none none none
        (flatSpanEvents [(5000, 6000, "a"), (1000, 2000, "b")])).map
        (fun l => l.main_syllables.map (·.start_ms)) = some [5000, 1000] ∧
    ¬ List.Chain' (fun a b => a.start_ms ≤ b.start_ms)
        ((processParagraph false none none [] 0 10000 none none none
          (flatSpanEvents [(5000, 6000, "a"), (1000, 2000, "b")])).elim []
          (fun l => l.main_syllables)) := by
  refine ⟨by decide, fun hchain => ?_⟩
  have h := (List.chain'_cons.mp
    (show List.Chain' (fun a b => a.start_ms ≤ b.start_ms)
      [(⟨"a", 5000, 6000, some 1000, false⟩ : LyricSyllable),
       ⟨"b", 1000, 2000, some 1000, false⟩] from hchain)).1
  exact absurd h (by decide)

/-- C3 amended witness: two spans in increasing order (0–500 ms then
500–1000 ms) do give a monotone line. -/
theorem processParagraph_sorted_spans_monotonic_witness :
    List.Pairwise (· ≤ ·) (([(0, 500, "Hi"), (500, 1000, "There")] :
        List (Nat × Nat × String)).map (·.1)) ∧
    List.Chain' (fun a b => a.start_ms ≤ b.start_ms)
      (⟨0, 1000, some "HiThere",
        [⟨"Hi", 0, 500, some 500, false⟩, ⟨"There", 500, 1000, some 500, false⟩],
        [], [], some "v1", none, none, none⟩ : LyricLine).main_syllables :=
  ⟨by decide,
   processParagraph_sorted_spans_monotonic none none [] 0 1000 none none none
     [(0, 500, "Hi"), (500, 1000, "There")] (by decide) _ (by decide)⟩

/-! ## Agent recognizer (`agent_recognizer.rs`)

The default pattern `^\s*(?:\((.+?)\)|（(.+?)）|([^\s:()（）]+))\s*[:：]\s*`
is matched by a hand-rolled backtracking matcher with the regex crate's
semantics: the leading `\s*` and trailing `\s*`s are effectively maximal
(no alternative can start with whitespace and nothing follows the
pattern), alternatives are tried in order, `(.+?)` is lazy (shortest
content first, `.` excluding `\n`), and `([^\s:()（）]+)` is greedy with
backtracking.  `Modelled from the spec:` `AgentRecognizerOptions` — the
options struct lives in `amll_player_types.rs`, which is not part of the
sources; its fields `{enabled, custom_pattern, case_sensitive,
inherit_agent, remove_marker_lines}` are taken from the spec's §6.
`custom_pattern` is fixed to `None` here (every claim concerns the
default pattern, which contains no cased literal, so `case_sensitive` is
inert).  A `Option.none` result of `clean_line_text` or
`recognize_agents` models a Rust panic (byte slicing off a char
boundary). -/

/-- Modelled from the spec: `AgentRecognizerOptions` (§6), without the
caller-supplied `custom_pattern` (fixed to `None`). -/
structure AgentRecognizerOptions where
  enabled : Bool
  case_sensitive : Bool
  inherit_agent : Bool
  remove_marker_lines : Bool
deriving DecidableEq, Repr

/-- `[^\s:()（）]` — the character class of the bare-name alternative. -/
def alt3Class (c : Char) : Bool :=
  !rustIsWhitespace c && !(c == ':') && !(c == '(') && !(c == ')') &&
    !(c == '（') && !(c == '）')

/-- Match the pattern's tail `\s*[:：]\s*`; returns the consumed
characters and the remainder. -/
def matchTail (l : List Char) : Option (List Char × List Char) :=
  let ws1 := l.takeWhile rustIsWhitespace
  match l.dropWhile rustIsWhitespace with
  | c :: rest2 =>
    if c = ':' ∨ c = '：' then
      some (ws1 ++ c :: rest2.takeWhile rustIsWhitespace,
        rest2.dropWhile rustIsWhitespace)
    else none
  | [] => none

/-- Lazy `(.+?)` up to `close`, then the tail: try the shortest content
first, extending on failure (backtracking).  Returns
`(group content, consumed characters after the opening bracket,
remainder)`. -/
def lazyGroup (close : Char) (acc : List Char) :
    List Char → Option (List Char × List Char × List Char)
  | [] => none
  | c :: rest =>
    if c = '\n' then none
    else
      match rest with
      | [] => none
      | c2 :: rest2 =>
        if c2 = close then
          match matchTail rest2 with
          | some (tailConsumed, remaining) =>
            some (acc ++ [c], (acc ++ [c]) ++ c2 :: tailConsumed, remaining)
          | none => lazyGroup close (acc ++ [c]) rest
        else lazyGroup close (acc ++ [c]) rest

/-- Greedy `([^\s:()（）]+)` then the tail: try the longest run first,
giving back one character per backtracking step.  The first argument is
the reversed remaining run. -/
def alt3Try : List Char → List Char → Option (List Char × List Char × List Char)
  | [], _ => none
  | c :: moreRev, rest =>
    match matchTail rest with
    | some (tailConsumed, remaining) =>
      some ((c :: moreRev).reverse, (c :: moreRev).reverse ++ tailConsumed, remaining)
    | none => alt3Try moreRev (c :: rest)

/-- The anchored default-pattern match of `get_agent_regex`
(agent_recognizer.rs:6-15) together with the capture extraction of
`recognize_agents` (agent_recognizer.rs:30-40): returns
`(full match, trimmed captured name, remaining text)`. -/
def defaultMatch (s : String) : Option (String × String × String) :=
  let l := s.data
  let ws := l.takeWhile rustIsWhitespace
  match l.dropWhile rustIsWhitespace with
  | [] => none
  | c :: rest' =>
    if c = '(' then
      match lazyGroup ')' [] rest' with
      | some (content, consumed, remaining) =>
        some (⟨ws ++ '(' :: consumed⟩, strTrim ⟨content⟩, ⟨remaining⟩)
      | none => none
    else if c = '（' then
      match lazyGroup '）' [] rest' with
      | some (content, consumed, remaining) =>
        some (⟨ws ++ '（' :: consumed⟩, strTrim ⟨content⟩, ⟨remaining⟩)
      | none => none
    else
      match alt3Try ((c :: rest').takeWhile alt3Class).reverse
          ((c :: rest').dropWhile alt3Class) with
      | some (content, consumed, remaining) =>
        some (⟨ws ++ consumed⟩, strTrim ⟨content⟩, ⟨remaining⟩)
      | none => none

/-- `get_line_text` (agent_recognizer.rs:71-82). -/
def get_line_text (line : LyricLine) : String :=
  match line.line_text with
  | some text => text
  | none => String.join (line.main_syllables.map (·.text))

/-- The drain loop of `clean_line_text` (agent_recognizer.rs:89-96):
consume whole syllables whose byte length fits in the remaining
deletion budget; returns `(remaining bytes, syllables to drain)`. -/
def drainCount : Nat → List LyricSyllable → Nat × Nat
  | lenToRemove, [] => (lenToRemove, 0)
  | lenToRemove, s :: rest =>
    if utf8Len s.text ≤ lenToRemove then
      let r := drainCount (lenToRemove - utf8Len s.text) rest
      (r.1, r.2 + 1)
    else (lenToRemove, 0)

/-- Byte slicing `&text[n..]`: `none` when `n` is not a character
boundary (a Rust panic) or out of bounds. -/
def sliceFromByte : Nat → List Char → Option (List Char)
  | 0, cs => some cs
  | _ + 1, [] => none
  | n + 1, c :: rest =>
    if n + 1 < c.utf8Size then none
    else sliceFromByte (n + 1 - c.utf8Size) rest

/-- `clean_line_text` (agent_recognizer.rs:84-126): strip the matched
prefix greedily from the head syllables (dropping whole syllables, then
truncating the next by byte index — `none` models the slicing panic),
then from `line_text` (or rebuild it from syllables when it does not
start with the prefix). -/
def clean_line_text (line : LyricLine) (prefixToRemove : String) : Option LyricLine :=
  let mainStep : Option (List LyricSyllable) :=
    if line.main_syllables = [] then some line.main_syllables
    else
      let dc := drainCount (utf8Len prefixToRemove) line.main_syllables
      let syls := line.main_syllables.drop dc.2
      if 0 < dc.1 then
        match syls with
        | [] => some syls
        | first :: rest =>
          if dc.1 < utf8Len first.text then
            match sliceFromByte dc.1 first.text.data with
            | some cs => some ({ first with text := ⟨cs⟩ } :: rest)
            | none => none
          else some rest
      else some syls
  match mainStep with
  | none => none
  | some syls =>
    let line := { line with main_syllables := syls }
    match line.line_text with
    | some text =>
      if prefixToRemove.data.isPrefixOf text.data then
        let stripped : String := ⟨text.data.drop prefixToRemove.data.length⟩
        some { line with line_text := some stripped }
      else if line.main_syllables ≠ [] then
        let rebuilt := String.join (line.main_syllables.map (·.text))
        some { line with line_text := some rebuilt }
      else some line
    | none => some line

/-- One iteration of the `for` loop of `recognize_agents`
(agent_recognizer.rs:27-66): returns the new carry and the kept line
(`none` inner = the marker line was dropped; `none` outer = panic in
`clean_line_text`). -/
def recognizeStep (options : AgentRecognizerOptions) (currentAgent : Option String)
    (line : LyricLine) : Option (Option String × Option LyricLine) :=
  match defaultMatch (get_line_text line) with
  | some (fullMatchStr, name, remainingText) =>
    if strTrim remainingText = "" then
      if options.remove_marker_lines then some (some name, none)
      else
        match clean_line_text line fullMatchStr with
        | some cleaned => some (some name, some cleaned)
        | none => none
    else
      match clean_line_text { line with agent := some name } fullMatchStr with
      | some cleaned => some (some name, some cleaned)
      | none => none
  | none =>
    if options.inherit_agent then
      some (currentAgent, some { line with agent := currentAgent })
    else some (currentAgent, some line)

/-- The loop of `recognize_agents` threaded over the line list. -/
def recognizeAgentsGo (options : AgentRecognizerOptions) :
    Option String → List LyricLine → Option (List LyricLine)
  | _, [] => some []
  | currentAgent, line :: rest =>
    match recognizeStep options currentAgent line with
    | none => none
    | some (carry, kept) =>
      match recognizeAgentsGo options carry rest with
      | none => none
      | some out =>
        match kept with
        | some l => some (l :: out)
        | none => some out

/-- `recognize_agents` (agent_recognizer.rs:17-69): no-op when disabled;
`none` models the panic of `clean_line_text`. -/
def recognize_agents (options : AgentRecognizerOptions) (lines : List LyricLine) :
    Option (List LyricLine) :=
  if options.enabled = false then some lines
  else recognizeAgentsGo options none lines

theorem recognizeAgentsGo_inherit (options : AgentRecognizerOptions)
    (hin : options.inherit_agent = true) (carry : Option String) :
    ∀ rest : List LyricLine, (∀ l ∈ rest, defaultMatch (get_line_text l) = none) →
    recognizeAgentsGo options carry rest
      = some (rest.map fun l => { l with agent := carry })
  | [], _ => rfl
  | l :: rest, h => by
    have hl := h l (List.mem_cons_self l rest)
    have ih := recognizeAgentsGo_inherit options hin carry rest
      fun x hx => h x (List.mem_cons_of_mem l hx)
    show (match recognizeStep options carry l with
      | none => none
      | some (carry', kept) =>
        match recognizeAgentsGo options carry' rest with
        | none => none
        | some out =>
          match kept with
          | some l' => some (l' :: out)
          | none => some out) = _
    rw [show recognizeStep options carry l
        = some (carry, some { l with agent := carry }) by
      simp only [recognizeStep, hl, hin]; rfl]
    show (match recognizeAgentsGo options carry rest with
      | none => none
      | some out => some ({ l with agent := carry } :: out)) = _
    rw [ih]
    rfl

/-- C7: with the default pattern, `remove_marker_lines = true` and
`inherit_agent = true`, a marker-only line `"(Bob):"` is removed from the
output and every subsequent line on which the pattern fails receives
`agent = "Bob"` (the carry persists for the whole non-matching tail). -/
theorem recognize_agents_marker_inherit (options : AgentRecognizerOptions)
    (ho : options.enabled = true) (hrm : options.remove_marker_lines = true)
    (hin : options.inherit_agent = true)
    (marker : LyricLine) (hmarker : get_line_text marker = "(Bob):")
    (rest : List LyricLine)
    (hrest : ∀ l ∈ rest, defaultMatch (get_line_text l) = none) :
    recognize_agents options (marker :: rest)
      = some (rest.map fun l => { l with agent := some "Bob" }) := by
  have hd : defaultMatch "(Bob):" = some ("(Bob):", "Bob", "") := by decide
  have hstep : recognizeStep options none marker = some (some "Bob", none) := by
    simp only [recognizeStep, hmarker, hd, hrm]
    rfl
  unfold recognize_agents
  rw [ho]
  simp only [Bool.true_eq_false, if_false]
  show (match recognizeStep options none marker with
    | none => none
    | some (carry, kept) =>
      match recognizeAgentsGo options carry rest with
      | none => none
      | some out =>
        match kept with
        | some l' => some (l' :: out)
        | none => some out) = _
  rw [hstep]
  show (match recognizeAgentsGo options (some "Bob") rest with
    | none => none
    | some out => some out) = _
  rw [recognizeAgentsGo_inherit options hin (some "Bob") rest hrest]

/-- C7 witness: the two-line list `["(Bob):", "Hello"]` under
`{enabled, ¬case_sensitive, inherit_agent, remove_marker_lines}` loses the
marker line, and the `"Hello"` line comes out with `agent = "Bob"`. -/
theorem recognize_agents_marker_inherit_witness :
    (get_line_text ⟨0, 1000, some "(Bob):", [], [], [], some "v1", none, none, none⟩
        = "(Bob):" ∧
      (∀ l ∈ [(⟨1000, 2000, some "Hello", [], [], [], some "v1", none, none, none⟩ :
          LyricLine)], defaultMatch (get_line_text l) = none)) ∧
    recognize_agents ⟨true, false, true, true⟩
        [⟨0, 1000, some "(Bob):", [], [], [], some "v1", none, none, none⟩,
         ⟨1000, 2000, some "Hello", [], [], [], some "v1", none, none, none⟩]
      = some [⟨1000, 2000, some "Hello", [], [], [], some "Bob", none, none, none⟩] :=
  ⟨⟨rfl, by decide⟩,
   recognize_agents_marker_inherit ⟨true, false, true, true⟩ rfl rfl rfl
     ⟨0, 1000, some "(Bob):", [], [], [], some "v1", none, none, none⟩ rfl
     [⟨1000, 2000, some "Hello", [], [], [], some "v1", none, none, none⟩]
     (by decide)⟩

/-- C8: the greedy prefix strip is *not* boundary-safe.  The word-timed
line with syllables `"AB"` (followed by a space) and `"：：x"` has
`line_text = "AB ：：x"`; the default pattern matches the 6-byte prefix
`"AB ："`, the drain leaves 4 bytes to cut inside `"：：x"`, and byte 4
falls in the middle of the second 3-byte `'：'` — `&text[4..]` panics
(modelled as `none`). -/
theorem recognize_agents_char_boundary_panic :
    clean_line_text
        ⟨0, 1000, some "AB ：：x",
          [⟨"AB", 0, 500, some 500, true⟩, ⟨"：：x", 500, 1000, some 500, false⟩],
          [], [], some "v1", none, none, none⟩ "AB ：" = none ∧
    recognize_agents ⟨true, false, true, false⟩
        [⟨0, 1000, some "AB ：：x",
          [⟨"AB", 0, 500, some 500, true⟩, ⟨"：：x", 500, 1000, some 500, false⟩],
          [], [], some "v1", none, none, none⟩] = none := by
  constructor <;> decide

theorem clean_line_text_agent (line : LyricLine) (p : String) (cleaned : LyricLine)
    (h : clean_line_text line p = some cleaned) : cleaned.agent = line.agent := by
  simp only [clean_line_text] at h
  split at h
  · exact absurd h (by simp)
  · split at h
    · split at h
      · rw [← Option.some.inj h]
      · split at h
        · rw [← Option.some.inj h]
        · rw [← Option.some.inj h]
    · rw [← Option.some.inj h]

/-- C10: with `remove_marker_lines = false`, a marker-only line (the
matched prefix covers the whole text up to trailing whitespace) is kept,
run through `clean_line_text` (prefix stripped), and its own `agent`
field is untouched; the matched name goes only into the carry, which —
with `inherit_agent = true` — is what subsequent non-matching lines
receive as their `agent`. -/
theorem recognizeStep_marker_keep (options : AgentRecognizerOptions)
    (hrm : options.remove_marker_lines = false)
    (carry : Option String) (line : LyricLine)
    (fullMatchStr name remainingText : String)
    (hmatch : defaultMatch (get_line_text line)
      = some (fullMatchStr, name, remainingText))
    (hmarker : strTrim remainingText = "")
    (cleaned : LyricLine)
    (hclean : clean_line_text line fullMatchStr = some cleaned) :
    recognizeStep options carry line = some (some name, some cleaned) ∧
    cleaned.agent = line.agent ∧
    (∀ l : LyricLine, defaultMatch (get_line_text l) = none →
      options.inherit_agent = true →
      recognizeStep options (some name) l
        = some (some name, some { l with agent := some name })) := by
  refine ⟨?_, clean_line_text_agent line fullMatchStr cleaned hclean, ?_⟩
  · simp only [recognizeStep, hmatch, hmarker, hrm, hclean]
    rfl
  · intro l hl hin
    simp only [recognizeStep, hl, hin]
    rfl

/-- C10 witness: the marker line `"(Bob):"` under `remove_marker_lines =
false` is kept with `line_text` stripped to `""` and `agent` still
`"v1"`, the carry becomes `"Bob"`, and a following `"Hello"` line
inherits `agent = "Bob"`. -/
theorem recognizeStep_marker_keep_witness :
    (defaultMatch (get_line_text
          ⟨0, 1000, some "(Bob):", [], [], [], some "v1", none, none, none⟩)
        = some ("(Bob):", "Bob", "") ∧
      strTrim "" = "" ∧
      clean_line_text ⟨0, 1000, some "(Bob):", [], [], [], some "v1", none, none, none⟩
          "(Bob):"
        = some ⟨0, 1000, some "", [], [], [], some "v1", none, none, none⟩) ∧
    (recognizeStep ⟨true, false, true, false⟩ none
        ⟨0, 1000, some "(Bob):", [], [], [], some "v1", none, none, none⟩
      = some (some "Bob",
          some ⟨0, 1000, some "", [], [], [], some "v1", none, none, none⟩) ∧
      (⟨0, 1000, some "", [], [], [], some "v1", none, none, none⟩ : LyricLine).agent
        = (⟨0, 1000, some "(Bob):", [], [], [], some "v1", none, none, none⟩
            : LyricLine).agent ∧
      recognizeStep ⟨true, false, true, false⟩ (some "Bob")
          ⟨1000, 2000, some "Hello", [], [], [], some "v1", none, none, none⟩
        = some (some "Bob",
            some ⟨1000, 2000, some "Hello", [], [], [], some "Bob", none, none, none⟩)) :=
  ⟨⟨by decide, rfl, by decide⟩,
   (recognizeStep_marker_keep ⟨true, false, true, false⟩ rfl none
      ⟨0, 1000, some "(Bob):", [], [], [], some "v1", none, none, none⟩
      "(Bob):" "Bob" "" (by decide) rfl
      ⟨0, 1000, some "", [], [], [], some "v1", none, none, none⟩ (by decide)).1,
   (recognizeStep_marker_keep ⟨true, false, true, false⟩ rfl none
      ⟨0, 1000, some "(Bob):", [], [], [], some "v1", none, none, none⟩
      "(Bob):" "Bob" "" (by decide) rfl
      ⟨0, 1000, some "", [], [], [], some "v1", none, none, none⟩ (by decide)).2.1,
   (recognizeStep_marker_keep ⟨true, false, true, false⟩ rfl none
      ⟨0, 1000, some "(Bob):", [], [], [], some "v1", none, none, none⟩
      "(Bob):" "Bob" "" (by decide) rfl
      ⟨0, 1000, some "", [], [], [], some "v1", none, none, none⟩ (by decide)).2.2
     ⟨1000, 2000, some "Hello", [], [], [], some "v1", none, none, none⟩
     (by decide) rfl⟩
